import Mathlib

/-!
Shallow embedding of the lodestar blog backend (Flask + SQLAlchemy) and
verification of its specification claims.

Conventions of the embedding:
* Database tables are Lean lists kept in insertion order (SQLite rowid order).
* Timestamps are natural numbers; `datetime.utcnow()` becomes an explicit
  `now : Nat` argument to each handler.
* Autogenerated UUID primary keys become explicit `newId : String` arguments.
* JSON request bodies become structures whose fields are `Option`-valued:
  `none` means the key is absent, `some v` that it is present with value `v`.
* Handlers return their HTTP status code together with the resulting
  database state (and a payload where one is needed by a claim).
* Python string semantics (`lower`, `isalnum`) are modelled at ASCII
  granularity, which is the granularity the routes are exercised at.
-/

namespace Lodestar

def digitsOf (n : Nat) : List Char := Nat.toDigits 10 n

def digitsVal (l : List Char) : Nat := l.foldl (fun a c => 10 * a + (c.toNat - 48)) 0

def pyLower (s : String) : String :=
  String.mk (s.toList.map Char.toLower)

def slugFromTitle (title : String) : String :=
  String.mk ((((pyLower title).toList.map (fun c => if c = ' ' then '-' else c)).map
    (fun c => if c = '_' then '-' else c)))

def slugClean (s : String) : String :=
  let kept := s.toList.filter (fun c => c.isAlphanum || c == '-')
  String.mk (((kept.dropWhile (· == '-')).reverse.dropWhile (· == '-')).reverse)

def slugCandidate (title : String) (given : Option String) : String :=
  slugClean (match given with
    | some g => if g == "" then slugFromTitle title else g
    | none => slugFromTitle title)

def slugAt (orig : String) : Nat → String
  | 0 => orig
  | k + 1 => orig ++ "-" ++ Nat.repr (k + 1)

def allocSlugLoop (taken : List String) (orig : String) : Nat → Nat → String
  | 0, k => slugAt orig k
  | fuel + 1, k =>
    if slugAt orig k ∈ taken then allocSlugLoop taken orig fuel (k + 1)
    else slugAt orig k

def allocSlug (taken : List String) (orig : String) : String :=
  allocSlugLoop taken orig (taken.length + 1) 0

structure User where
  id : String
  username : String
  email : String
  password_hash : String
  first_name : String
  last_name : String
  is_active : Bool
  is_admin : Bool
deriving DecidableEq

structure Post where
  id : String
  title : String
  content : String
  excerpt : String
  slug : String
  is_published : Bool
  published_at : Option Nat
  created_at : Nat
  updated_at : Nat
  user_id : String
deriving DecidableEq

structure Tag where
  id : String
  name : String
  slug : String
  description : String
  created_at : Nat
deriving DecidableEq

structure Comment where
  id : String
  content : String
  is_approved : Bool
  author_name : String
  author_email : String
  created_at : Nat
  post_id : String
  user_id : Option String
deriving DecidableEq

structure DB where
  users : List User
  posts : List Post
  tags : List Tag
  comments : List Comment
  post_tags : List (String × String)
deriving DecidableEq

def getPost (db : DB) (pid : String) : Option Post :=
  db.posts.find? (fun p => p.id == pid)

def getComment (db : DB) (cid : String) : Option Comment :=
  db.comments.find? (fun c => c.id == cid)

structure Page (α : Type) where
  items : List α
  total : Nat
  pages : Nat
  current_page : Nat
deriving DecidableEq

def paginate (rows : List α) (page per_page : Nat) : Page α :=
  let p := max page 1
  { items := (rows.drop ((p - 1) * per_page)).take per_page
    total := rows.length
    pages := if per_page = 0 then 0 else (rows.length + per_page - 1) / per_page
    current_page := page }

def orderByCreatedDesc (rows : List Comment) : List Comment :=
  rows.insertionSort (fun a b => b.created_at ≤ a.created_at)

def orderPostsByCreatedDesc (rows : List Post) : List Post :=
  rows.insertionSort (fun a b => b.created_at ≤ a.created_at)

structure PostCreateData where
  title : Option String
  content : Option String
  excerpt : Option String
  slug : Option String
  is_published : Option Bool
deriving DecidableEq

def fieldMissing : Option String → Bool
  | none => true
  | some s => s == ""

def createdPost (db : DB) (uid : String) (d : PostCreateData) (now : Nat)
    (nid : String) : Post :=
  { id := nid, title := (d.title).getD "", content := (d.content).getD "",
    excerpt := (d.excerpt).getD "",
    slug := allocSlug (db.posts.map Post.slug) (slugCandidate ((d.title).getD "") d.slug),
    is_published := (d.is_published).getD false,
    published_at := if (d.is_published).getD false then some now else none,
    created_at := now, updated_at := now, user_id := uid }

def create_post (db : DB) (current_user_id : String) (data : PostCreateData)
    (now : Nat) (newId : String) : Nat × DB :=
  match data.title, data.content with
  | some title, some content =>
    if title == "" || content == "" then (400, db)
    else
      let slug := allocSlug (db.posts.map Post.slug) (slugCandidate title data.slug)
      let pub := (data.is_published).getD false
      let post : Post :=
        { id := newId, title := title, content := content
          excerpt := (data.excerpt).getD "", slug := slug
          is_published := pub
          published_at := if pub then some now else none
          created_at := now, updated_at := now, user_id := current_user_id }
      (201, { db with posts := db.posts ++ [post] })
  | _, _ => (400, db)

structure PostUpdateData where
  title : Option String
  content : Option String
  excerpt : Option String
  is_published : Option Bool
deriving DecidableEq

def pudIsEmpty (d : PostUpdateData) : Bool :=
  d.title.isNone && d.content.isNone && d.excerpt.isNone && d.is_published.isNone

def updatePostFields (p : Post) (d : PostUpdateData) (now : Nat) : Post :=
  let p1 := match d.title with | some t => { p with title := t } | none => p
  let p2 := match d.content with | some c => { p1 with content := c } | none => p1
  let p3 := match d.excerpt with | some e => { p2 with excerpt := e } | none => p2
  let p4 := match d.is_published with
    | some b =>
      { p3 with is_published := b
                published_at := if b && p3.published_at.isNone then some now else p3.published_at }
    | none => p3
  { p4 with updated_at := now }

def update_post (db : DB) (current_user_id : String) (post_id : String)
    (data : Option PostUpdateData) (now : Nat) : Nat × DB :=
  match db.posts.find? (fun p => p.id == post_id) with
  | none => (404, db)
  | some post =>
    match db.users.find? (fun u => u.id == current_user_id) with
    | none => (500, db)
    | some user =>
      if post.user_id != current_user_id && !user.is_admin then (403, db)
      else
        match data with
        | none => (400, db)
        | some d =>
          if pudIsEmpty d then (400, db)
          else
            let post2 := updatePostFields post d now
            (200, { db with posts := db.posts.map (fun p => if p.id == post_id then post2 else p) })

def delete_post (db : DB) (current_user_id : String) (post_id : String) : Nat × DB :=
  match db.posts.find? (fun p => p.id == post_id) with
  | none => (404, db)
  | some post =>
    match db.users.find? (fun u => u.id == current_user_id) with
    | none => (500, db)
    | some user =>
      if post.user_id != current_user_id && !user.is_admin then (403, db)
      else
        (200, { db with posts := db.posts.filter (fun p => !(p.id == post_id))
                        comments := db.comments.filter (fun c => !(c.post_id == post_id))
                        post_tags := db.post_tags.filter (fun pt => !(pt.1 == post_id)) })

def get_posts (db : DB) (page per_page : Option Nat)
    (published_only tag : Option String) : Page Post :=
  let q1 := if pyLower (published_only.getD "true") == "true"
    then db.posts.filter (fun p => p.is_published)
    else db.posts
  let q2 := match tag with
    | none => q1
    | some ts =>
      match db.tags.find? (fun t => t.slug == ts) with
      | none => q1
      | some t => q1.filter (fun p => db.post_tags.contains (p.id, t.id))
  paginate (orderPostsByCreatedDesc q2) (page.getD 1) (per_page.getD 10)

def adminCheck (db : DB) (actorId : Option String) : Option Nat :=
  match actorId with
  | none => some 401
  | some aid =>
    match db.users.find? (fun u => u.id == aid) with
    | none => some 403
    | some u => if u.is_admin then none else some 403

def get_all_users (db : DB) (actorId : Option String) (page per_page : Option Nat) :
    Nat × Option (Page User) :=
  match adminCheck db actorId with
  | some s => (s, none)
  | none => (200, some (paginate db.users (page.getD 1) (per_page.getD 20)))

def get_all_comments (db : DB) (actorId : Option String) (page per_page : Option Nat)
    (approved_only : Option String) : Nat × Option (Page Comment) :=
  match adminCheck db actorId with
  | some s => (s, none)
  | none =>
    let q := if pyLower (approved_only.getD "false") == "true"
      then db.comments.filter (fun c => c.is_approved)
      else db.comments
    (200, some (paginate (orderByCreatedDesc q) (page.getD 1) (per_page.getD 20)))

def get_post_comments (db : DB) (post_id : String) : Nat × Option (List Comment) :=
  match db.posts.find? (fun p => p.id == post_id) with
  | none => (404, none)
  | some _ =>
    (200, some (db.comments.filter (fun c => c.post_id == post_id && c.is_approved)))

structure CommentCreateData where
  content : Option String
  author_name : Option String
  author_email : Option String
deriving DecidableEq

def get_jwt_identity_unverified (_callerToken : Option String) : Except Unit (Option String) :=
  Except.error ()

def create_comment (db : DB) (callerToken : Option String) (post_id : String)
    (data : Option CommentCreateData) (now : Nat) (newId : String) : Nat × DB :=
  match db.posts.find? (fun p => p.id == post_id) with
  | none => (404, db)
  | some _ =>
    match data with
    | none => (400, db)
    | some d =>
      match d.content with
      | none => (400, db)
      | some content =>
        let base : Comment :=
          { id := newId, content := content, is_approved := false
            author_name := (d.author_name).getD "", author_email := (d.author_email).getD ""
            created_at := now, post_id := post_id, user_id := none }
        let comment := match get_jwt_identity_unverified callerToken with
          | Except.ok (some uid) => if uid == "" then base else { base with user_id := some uid }
          | Except.ok none => base
          | Except.error _ => base
        (201, { db with comments := db.comments ++ [comment] })

structure TagCreateData where
  name : Option String
  slug : Option String
  description : Option String
deriving DecidableEq

def create_tag (db : DB) (actorId : Option String) (data : Option TagCreateData)
    (now : Nat) (newId : String) : Nat × DB :=
  match actorId with
  | none => (401, db)
  | some _ =>
    match data with
    | none => (400, db)
    | some d =>
      match d.name with
      | none => (400, db)
      | some name =>
        if db.tags.any (fun t => t.name == name) then (400, db)
        else
          let slug := slugCandidate name d.slug
          if db.tags.any (fun t => t.slug == slug) then (500, db)
          else
            (201, { db with tags := db.tags ++
              [{ id := newId, name := name, slug := slug
                 description := (d.description).getD "", created_at := now }] })

def approveFn (cid : String) : Comment → Comment :=
  fun x => if x.id == cid then { x with is_approved := true } else x

def approve_comment (db : DB) (actorId : Option String) (comment_id : String) : Nat × DB :=
  match adminCheck db actorId with
  | some s => (s, db)
  | none =>
    match db.comments.find? (fun c => c.id == comment_id) with
    | none => (404, db)
    | some _ =>
      (200, { db with comments :=
        db.comments.map (fun c => if c.id == comment_id then { c with is_approved := true } else c) })

def emailLocalChar (c : Char) : Bool :=
  c.isAlphanum || c == '.' || c == '_' || c == '%' || c == '+' || c == '-'

def emailDomainChar (c : Char) : Bool :=
  c.isAlphanum || c == '.' || c == '-'

def splitOnChar (sep : Char) : List Char → List (List Char)
  | [] => [[]]
  | c :: rest =>
    match splitOnChar sep rest with
    | [] => [[]]
    | g :: gs => if c = sep then [] :: g :: gs else (c :: g) :: gs

def validate_email (email : String) : Bool :=
  match splitOnChar '@' email.toList with
  | [lpart, domain] =>
    !lpart.isEmpty && lpart.all emailLocalChar
      && domain.all emailDomainChar
      && (let rdom := domain.reverse
          let tld := rdom.takeWhile Char.isAlpha
          decide (2 ≤ tld.length) &&
            (match rdom.drop tld.length with
             | [] => false
             | c :: rest => c == '.' && !rest.isEmpty))
  | _ => false

structure RegisterData where
  username : Option String
  email : Option String
  password : Option String
  first_name : Option String
  last_name : Option String
deriving DecidableEq

def generate_password_hash (p : String) : String := "pbkdf2-sha256$" ++ p

def register (db : DB) (data : Option RegisterData) (newId : String) :
    Nat × Option String × DB :=
  match data with
  | none => (400, some "No data provided", db)
  | some d =>
    if fieldMissing d.username then (400, some "username is required", db)
    else if fieldMissing d.email then (400, some "email is required", db)
    else if fieldMissing d.password then (400, some "password is required", db)
    else
      let username := (d.username).getD ""
      let email := (d.email).getD ""
      let password := (d.password).getD ""
      if !validate_email email then (400, some "Invalid email format", db)
      else if db.users.any (fun u => u.username == username) then
        (400, some "Username already exists", db)
      else if db.users.any (fun u => u.email == email) then
        (400, some "Email already exists", db)
      else
        (201, none,
          { db with users := db.users ++
            [{ id := newId, username := username, email := email
               password_hash := generate_password_hash password
               first_name := (d.first_name).getD "", last_name := (d.last_name).getD ""
               is_active := true, is_admin := false }] })

def main_get_post (db : DB) (slug : String) (_actor : Option String) : Nat × Option Post :=
  match db.posts.find? (fun p => p.slug == slug && p.is_published) with
  | none => (404, none)
  | some p => (200, some p)

def createPosts (db : DB) (uid : String) (reqs : List (PostCreateData × Nat × String)) : DB :=
  reqs.foldl (fun d r => (create_post d uid r.1 r.2.1 r.2.2).2) db

def goodReq (c : String) (d : PostCreateData) : Prop :=
  ∃ t ct, d.title = some t ∧ d.content = some ct ∧ t ≠ "" ∧ ct ≠ ""
    ∧ slugCandidate t d.slug = c

def runPostUpdates (db : DB) (pid : String)
    (steps : List (String × Option PostUpdateData × Nat)) : DB :=
  steps.foldl (fun d s => (update_post d s.1 pid s.2.1 s.2.2).2) db

def postStep (users : List User) (p : Post)
    (s : String × Option PostUpdateData × Nat) : Post :=
  match users.find? (fun u => u.id == s.1) with
  | none => p
  | some user =>
    if p.user_id != s.1 && !user.is_admin then p
    else
      match s.2.1 with
      | none => p
      | some d => if pudIsEmpty d then p else updatePostFields p d s.2.2

def elevenCommentsDb : DB :=
  ⟨[], [⟨"p1", "T", "B", "", "t", true, some 0, 0, 0, "u1"⟩], [],
   (List.range 11).map (fun i => ⟨"c" ++ Nat.repr i, "x", true, "", "", i, "p1", none⟩), []⟩

instance : IsTotal Comment (fun a b => b.created_at ≤ a.created_at) :=
  ⟨fun a b => (Nat.le_total a.created_at b.created_at).symm⟩

instance : IsTrans Comment (fun a b => b.created_at ≤ a.created_at) :=
  ⟨fun _ _ _ hab hbc => le_trans hbc hab⟩

def twoCommentsDb : DB :=
  ⟨[], [⟨"p1", "T", "B", "", "t", true, some 0, 0, 0, "u1"⟩], [],
   [⟨"c1", "first", true, "", "", 0, "p1", none⟩,
    ⟨"c2", "second", true, "", "", 1, "p1", none⟩], []⟩

theorem toDigitsCore_acc :
    ∀ (n fuel : Nat) (ds : List Char), n < fuel →
      Nat.toDigitsCore 10 fuel n ds = Nat.toDigitsCore 10 (n + 1) n [] ++ ds := by
  intro n
  induction n using Nat.strong_induction_on with
  | _ n ih =>
    intro fuel ds h
    obtain ⟨f, rfl⟩ : ∃ f, fuel = f + 1 := ⟨fuel - 1, by omega⟩
    by_cases h10 : n / 10 = 0
    · simp [Nat.toDigitsCore, h10]
    · have hn0 : 0 < n := by
        rcases Nat.eq_zero_or_pos n with h0 | h0
        · exact absurd (by simp [h0]) h10
        · exact h0
      have hdiv : n / 10 < n := Nat.div_lt_self hn0 (by norm_num)
      have hf : n / 10 < f := by omega
      have lhs : Nat.toDigitsCore 10 (f + 1) n ds
          = Nat.toDigitsCore 10 f (n / 10) (Nat.digitChar (n % 10) :: ds) := by
        simp [Nat.toDigitsCore, h10]
      have rhs : Nat.toDigitsCore 10 (n + 1) n []
          = Nat.toDigitsCore 10 n (n / 10) [Nat.digitChar (n % 10)] := by
        obtain ⟨m, rfl⟩ : ∃ m, n = m + 1 := ⟨n - 1, by omega⟩
        simp [Nat.toDigitsCore, h10]
      rw [lhs, ih (n / 10) hdiv f _ hf, rhs, ih (n / 10) hdiv n _ hdiv,
        List.append_assoc]
      rfl

theorem digitsOf_lt (n : Nat) (h : n < 10) : digitsOf n = [Nat.digitChar n] := by
  have h10 : n / 10 = 0 := Nat.div_eq_of_lt h
  have hmod : n % 10 = n := Nat.mod_eq_of_lt h
  simp [digitsOf, Nat.toDigits, Nat.toDigitsCore, h10, hmod]

theorem digitsOf_ge (n : Nat) (h : 10 ≤ n) :
    digitsOf n = digitsOf (n / 10) ++ [Nat.digitChar (n % 10)] := by
  have h10 : ¬ n / 10 = 0 := by
    intro h0
    have := (Nat.div_eq_zero_iff (by norm_num : 0 < 10)).mp h0
    omega
  have hdiv : n / 10 < n := Nat.div_lt_self (by omega) (by norm_num)
  have step : digitsOf n = Nat.toDigitsCore 10 n (n / 10) [Nat.digitChar (n % 10)] := by
    obtain ⟨m, rfl⟩ : ∃ m, n = m + 1 := ⟨n - 1, by omega⟩
    simp [digitsOf, Nat.toDigits, Nat.toDigitsCore, h10]
  rw [step, toDigitsCore_acc (n / 10) n _ hdiv]
  rfl

theorem digitsVal_append (l : List Char) (c : Char) :
    digitsVal (l ++ [c]) = 10 * digitsVal l + (c.toNat - 48) := by
  simp [digitsVal, List.foldl_append]

theorem digitChar_val (d : Nat) (h : d < 10) : (Nat.digitChar d).toNat - 48 = d := by
  interval_cases d <;> decide

theorem digitsVal_digitsOf (n : Nat) : digitsVal (digitsOf n) = n := by
  induction n using Nat.strong_induction_on with
  | _ n ih =>
    by_cases h : n < 10
    · rw [digitsOf_lt n h]
      simpa [digitsVal] using digitChar_val n h
    · push_neg at h
      have hdiv : n / 10 < n := Nat.div_lt_self (by omega) (by norm_num)
      rw [digitsOf_ge n h, digitsVal_append, ih (n / 10) hdiv,
        digitChar_val _ (Nat.mod_lt _ (by norm_num))]
      omega

theorem digitsOf_inj {m n : Nat} (h : digitsOf m = digitsOf n) : m = n := by
  have hm := digitsVal_digitsOf m
  rw [h, digitsVal_digitsOf] at hm
  omega

theorem digitsOf_ne_nil (n : Nat) : digitsOf n ≠ [] := by
  by_cases h : n < 10
  · rw [digitsOf_lt n h]; simp
  · push_neg at h
    rw [digitsOf_ge n h]; simp

theorem repr_data (n : Nat) : (Nat.repr n).data = digitsOf n := rfl

theorem slugAt_inj (orig : String) : Function.Injective (slugAt orig) := by
  have hlen : ∀ k : Nat, (slugAt orig (k + 1)).length = orig.length + 1 + (Nat.repr (k + 1)).length := by
    intro k
    simp [slugAt, String.length_append]
    decide
  have hpos : ∀ n : Nat, 0 < (Nat.repr n).length := by
    intro n
    have := digitsOf_ne_nil n
    have hd : (Nat.repr n).length = (digitsOf n).length := by
      rw [String.length, repr_data]
    rw [hd]
    cases hmm : digitsOf n with
    | nil => exact absurd hmm this
    | cons a l => simp
  intro a b h
  match a, b with
  | 0, 0 => rfl
  | 0, b + 1 =>
    exfalso
    have hL := congrArg String.length h
    have h0 : (slugAt orig 0).length = orig.length := rfl
    rw [h0, hlen b] at hL
    have := hpos (b + 1)
    omega
  | a + 1, 0 =>
    exfalso
    have hL := congrArg String.length h
    have h0 : (slugAt orig 0).length = orig.length := rfl
    rw [h0, hlen a] at hL
    have := hpos (a + 1)
    omega
  | a + 1, b + 1 =>
    have hdata := congrArg String.data h
    simp only [slugAt, String.data_append] at hdata
    have h2 : (Nat.repr (a + 1)).data = (Nat.repr (b + 1)).data :=
      List.append_cancel_left hdata
    rw [repr_data, repr_data] at h2
    exact congrArg (· + 1) (Nat.succ_injective (digitsOf_inj h2))

theorem allocSlugLoop_least (taken : List String) (orig : String) :
    ∀ (fuel k j : Nat), k ≤ j → j ≤ k + fuel → slugAt orig j ∉ taken →
      (∀ i, k ≤ i → i < j → slugAt orig i ∈ taken) →
      allocSlugLoop taken orig fuel k = slugAt orig j := by
  intro fuel
  induction fuel with
  | zero =>
    intro k j h1 h2 _ _
    have : j = k := by omega
    subst this
    rfl
  | succ f ihf =>
    intro k j h1 h2 hfree hbelow
    simp only [allocSlugLoop]
    by_cases hk : slugAt orig k ∈ taken
    · rw [if_pos hk]
      have hkj : k < j := by
        rcases Nat.lt_or_ge k j with h | h
        · exact h
        · have : j = k := by omega
          subst this
          exact absurd hk hfree
      exact ihf (k + 1) j (by omega) (by omega) hfree
        (fun i hi hij => hbelow i (by omega) hij)
    · rw [if_neg hk]
      have : j = k := by
        rcases Nat.lt_or_ge k j with h | h
        · exact absurd (hbelow k (le_refl k) h) hk
        · omega
      rw [this]

theorem exists_free_slug (taken : List String) (orig : String) :
    ∃ j, j ≤ taken.length ∧ slugAt orig j ∉ taken := by
  by_contra hcon
  push_neg at hcon
  have hsub : ((List.range (taken.length + 1)).map (slugAt orig)) ⊆ taken := by
    intro s hs
    simp only [List.mem_map, List.mem_range] at hs
    obtain ⟨j, hj, rfl⟩ := hs
    exact hcon j (by omega)
  have hnd : ((List.range (taken.length + 1)).map (slugAt orig)).Nodup :=
    (List.nodup_range _).map (slugAt_inj orig)
  have hle := (List.subperm_of_subset hnd hsub).length_le
  simp at hle

theorem allocSlug_least (taken : List String) (orig : String) :
    ∃ k, allocSlug taken orig = slugAt orig k ∧ slugAt orig k ∉ taken ∧
      ∀ i, i < k → slugAt orig i ∈ taken := by
  obtain ⟨j, hj, hfree⟩ := exists_free_slug taken orig
  have hex : ∃ j, slugAt orig j ∉ taken := ⟨j, hfree⟩
  refine ⟨Nat.find hex, ?_, Nat.find_spec hex, ?_⟩
  · exact allocSlugLoop_least taken orig (taken.length + 1) 0 (Nat.find hex)
      (Nat.zero_le _) (by have := Nat.find_min' hex hfree; omega)
      (Nat.find_spec hex)
      (fun i _ hik => by
        have := Nat.find_min hex hik
        simpa using this)
  · intro i hik
    have := Nat.find_min hex hik
    simpa using this

theorem beq_empty_false_of_ne {s : String} (h : s ≠ "") : (s == "") = false := by
  simpa using h

theorem allocSlug_free {taken : List String} {cand : String} (h : cand ∉ taken) :
    allocSlug taken cand = cand := by
  obtain ⟨k, halloc, _, hbelow⟩ := allocSlug_least taken cand
  rcases Nat.eq_zero_or_pos k with hk | hk
  · rw [halloc, hk]; rfl
  · exact absurd (hbelow 0 hk) h

theorem find?_map_idpres {l : List Comment} {cid : String} {f : Comment → Comment}
    (hf : ∀ x, (f x).id = x.id) :
    (l.map f).find? (fun x => x.id == cid) = (l.find? (fun x => x.id == cid)).map f := by
  have hfun : ((fun x : Comment => x.id == cid) ∘ f) = (fun x : Comment => x.id == cid) := by
    funext x
    simp [Function.comp, hf]
  rw [List.find?_map, hfun]

theorem find?_map_post_idpres {l : List Post} {pid : String} {f : Post → Post}
    (hf : ∀ x, (f x).id = x.id) :
    (l.map f).find? (fun x => x.id == pid) = (l.find? (fun x => x.id == pid)).map f := by
  have hfun : ((fun x : Post => x.id == pid) ∘ f) = (fun x : Post => x.id == pid) := by
    funext x
    simp [Function.comp, hf]
  rw [List.find?_map, hfun]

theorem claim_c10_unpublished_hidden (db : DB) (p : Post) (actor : Option String)
    (hp : p ∈ db.posts) (hunpub : p.is_published = false)
    (huniq : ∀ q ∈ db.posts, q.slug = p.slug → q = p) :
    main_get_post db p.slug actor = (404, none) := by
  have hnone : db.posts.find? (fun q => q.slug == p.slug && q.is_published) = none := by
    rw [List.find?_eq_none]
    intro q hq hmatch
    simp only [Bool.and_eq_true, beq_iff_eq] at hmatch
    have := huniq q hq hmatch.1
    subst this
    rw [hunpub] at hmatch
    exact Bool.false_ne_true hmatch.2
  simp [main_get_post, hnone]

theorem claim_c10_witness :
    main_get_post
      ⟨[⟨"u1", "alice", "alice@x.com", "h", "", "", true, true⟩],
       [⟨"p1", "Draft", "body", "", "draft", false, none, 0, 0, "u1"⟩], [], [], []⟩
      "draft" (some "u1") = (404, none) := by
  have := claim_c10_unpublished_hidden
    ⟨[⟨"u1", "alice", "alice@x.com", "h", "", "", true, true⟩],
     [⟨"p1", "Draft", "body", "", "draft", false, none, 0, 0, "u1"⟩], [], [], []⟩
    ⟨"p1", "Draft", "body", "", "draft", false, none, 0, 0, "u1"⟩
    (some "u1") (by decide) (by decide) (by decide)
  exact this

theorem claim_c7_register_duplicate (db : DB) (d : RegisterData) (nid : String)
    (u em pw : String)
    (hn : d.username = some u) (hm : d.email = some em) (hp : d.password = some pw)
    (hu0 : u ≠ "") (hm0 : em ≠ "") (hp0 : pw ≠ "")
    (hv : validate_email em = true)
    (hdup : ∃ w ∈ db.users, w.username = u ∨ w.email = em) :
    (register db (some d) nid).1 = 400
    ∧ ((register db (some d) nid).2.1 = some "Username already exists"
        ∨ (register db (some d) nid).2.1 = some "Email already exists")
    ∧ (register db (some d) nid).2.2 = db := by
  obtain ⟨w, hw, hor⟩ := hdup
  by_cases hca : db.users.any (fun x => x.username == u)
  · simp [register, hn, hm, hp, fieldMissing,
      beq_empty_false_of_ne hu0, beq_empty_false_of_ne hm0, beq_empty_false_of_ne hp0,
      hv, hca]
  · have hem : w.email = em := by
      rcases hor with h | h
      · exact absurd (List.any_eq_true.mpr ⟨w, hw, by simp [h]⟩) hca
      · exact h
    have hce : db.users.any (fun x => x.email == em) = true :=
      List.any_eq_true.mpr ⟨w, hw, by simp [hem]⟩
    simp [register, hn, hm, hp, fieldMissing,
      beq_empty_false_of_ne hu0, beq_empty_false_of_ne hm0, beq_empty_false_of_ne hp0,
      hv, hca, hce]

theorem claim_c7_witness :
    (register
      ⟨[⟨"u1", "alice", "alice@x.com", "h", "", "", true, false⟩], [], [], [], []⟩
      (some ⟨some "alice", some "alice@y.org", some "pw123", none, none⟩) "u2").1 = 400
    ∧ (register
      ⟨[⟨"u1", "alice", "alice@x.com", "h", "", "", true, false⟩], [], [], [], []⟩
      (some ⟨some "alice", some "alice@y.org", some "pw123", none, none⟩) "u2").2.2 =
      ⟨[⟨"u1", "alice", "alice@x.com", "h", "", "", true, false⟩], [], [], [], []⟩ := by
  have := claim_c7_register_duplicate
    ⟨[⟨"u1", "alice", "alice@x.com", "h", "", "", true, false⟩], [], [], [], []⟩
    ⟨some "alice", some "alice@y.org", some "pw123", none, none⟩ "u2"
    "alice" "alice@y.org" "pw123" rfl rfl rfl
    (by decide) (by decide) (by decide) (by decide)
    ⟨⟨"u1", "alice", "alice@x.com", "h", "", "", true, false⟩, by decide, Or.inl rfl⟩
  exact ⟨this.1, this.2.2⟩

theorem claim_c4_post_mutation_authz (db : DB) (actor : User) (p : Post)
    (data : Option PostUpdateData) (now : Nat)
    (hu : db.users.find? (fun u => u.id == actor.id) = some actor)
    (hp : db.posts.find? (fun q => q.id == p.id) = some p) :
    ((update_post db actor.id p.id data now).1 = 403
        ↔ ¬(p.user_id = actor.id ∨ actor.is_admin = true))
    ∧ (¬(p.user_id = actor.id ∨ actor.is_admin = true) →
        (update_post db actor.id p.id data now).2 = db)
    ∧ ((delete_post db actor.id p.id).1 = 403
        ↔ ¬(p.user_id = actor.id ∨ actor.is_admin = true))
    ∧ (¬(p.user_id = actor.id ∨ actor.is_admin = true) →
        (delete_post db actor.id p.id).2 = db) := by
  by_cases hal : p.user_id = actor.id ∨ actor.is_admin = true
  · have hcf : (p.user_id != actor.id && !actor.is_admin) = false := by
      rcases hal with h | h <;> simp [h]
    have hup : (update_post db actor.id p.id data now).1 ≠ 403 := by
      rcases data with _ | d
      · simp [update_post, hp, hu, hcf]
      · by_cases hd : pudIsEmpty d <;> simp [update_post, hp, hu, hcf, hd]
    have hdel : (delete_post db actor.id p.id).1 ≠ 403 := by
      simp [delete_post, hp, hu, hcf]
    exact ⟨by simp [hup, hal], fun hn => absurd hal hn,
      by simp [hdel, hal], fun hn => absurd hal hn⟩
  · have hct : (p.user_id != actor.id && !actor.is_admin) = true := by
      push_neg at hal
      simp [bne_iff_ne, hal.1, hal.2]
    have hup : update_post db actor.id p.id data now = (403, db) := by
      simp [update_post, hp, hu, hct]
    have hdel : delete_post db actor.id p.id = (403, db) := by
      simp [delete_post, hp, hu, hct]
    exact ⟨by simp [hup, hal], fun _ => by simp [hup],
      by simp [hdel, hal], fun _ => by simp [hdel]⟩

theorem claim_c4_witness :
    (update_post
      ⟨[⟨"u2", "bob", "bob@x.com", "h", "", "", true, false⟩],
       [⟨"p1", "T", "B", "", "t", false, none, 0, 0, "u1"⟩], [], [], []⟩
      "u2" "p1" (some ⟨some "X", none, none, none⟩) 9).1 = 403
    ∧ (update_post
      ⟨[⟨"u2", "bob", "bob@x.com", "h", "", "", true, false⟩],
       [⟨"p1", "T", "B", "", "t", false, none, 0, 0, "u1"⟩], [], [], []⟩
      "u2" "p1" (some ⟨some "X", none, none, none⟩) 9).2 =
      ⟨[⟨"u2", "bob", "bob@x.com", "h", "", "", true, false⟩],
       [⟨"p1", "T", "B", "", "t", false, none, 0, 0, "u1"⟩], [], [], []⟩ := by
  have := claim_c4_post_mutation_authz
    ⟨[⟨"u2", "bob", "bob@x.com", "h", "", "", true, false⟩],
     [⟨"p1", "T", "B", "", "t", false, none, 0, 0, "u1"⟩], [], [], []⟩
    ⟨"u2", "bob", "bob@x.com", "h", "", "", true, false⟩
    ⟨"p1", "T", "B", "", "t", false, none, 0, 0, "u1"⟩
    (some ⟨some "X", none, none, none⟩) 9 (by decide) (by decide)
  exact ⟨this.1.mpr (by decide), this.2.1 (by decide)⟩

theorem claim_c6_admin_approve_idempotent (db : DB) (admin : User) (c : Comment)
    (ha : db.users.find? (fun u => u.id == admin.id) = some admin)
    (hadm : admin.is_admin = true)
    (hc : db.comments.find? (fun x => x.id == c.id) = some c) :
    (approve_comment db (some admin.id) c.id).1 = 200
    ∧ (getComment (approve_comment db (some admin.id) c.id).2 c.id).map
        Comment.is_approved = some true
    ∧ approve_comment (approve_comment db (some admin.id) c.id).2 (some admin.id) c.id
        = (200, (approve_comment db (some admin.id) c.id).2) := by
  have hfid : ∀ x, (approveFn c.id x).id = x.id := by
    intro x
    by_cases h : x.id = c.id <;> simp [approveFn, h]
  have hff : ∀ x : Comment, approveFn c.id (approveFn c.id x) = approveFn c.id x := by
    intro x
    by_cases h : x.id = c.id <;> simp [approveFn, h]
  have hcheck : adminCheck db (some admin.id) = none := by
    simp [adminCheck, ha, hadm]
  have h1 : approve_comment db (some admin.id) c.id
      = (200, { db with comments := db.comments.map (approveFn c.id) }) := by
    simp only [approve_comment, hcheck, hc]
    rfl
  have hfind2 : (db.comments.map (approveFn c.id)).find? (fun x => x.id == c.id)
      = some (approveFn c.id c) := by
    rw [find?_map_idpres hfid, hc]
    rfl
  have hmapmap : (db.comments.map (approveFn c.id)).map (approveFn c.id)
      = db.comments.map (approveFn c.id) := by
    rw [List.map_map]
    exact congrArg (fun g => db.comments.map g) (funext hff)
  have hcid : c.id = c.id := rfl
  refine ⟨by rw [h1], ?_, ?_⟩
  · rw [h1]
    show ((({ db with comments := db.comments.map (approveFn c.id) } : DB).comments.find?
      (fun x => x.id == c.id)).map Comment.is_approved) = some true
    rw [hfind2]
    simp [approveFn]
  · rw [h1]
    show approve_comment { db with comments := db.comments.map (approveFn c.id) }
      (some admin.id) c.id = (200, { db with comments := db.comments.map (approveFn c.id) })
    have hcheck2 : adminCheck { db with comments := db.comments.map (approveFn c.id) }
        (some admin.id) = none := hcheck
    have h2 : approve_comment { db with comments := db.comments.map (approveFn c.id) }
        (some admin.id) c.id
        = (200, { db with comments := (db.comments.map (approveFn c.id)).map (approveFn c.id) }) := by
      simp only [approve_comment, hcheck2, hfind2]
      rfl
    rw [h2, hmapmap]

theorem claim_c6_witness :
    (approve_comment
      ⟨[⟨"adm", "root", "root@x.com", "h", "", "", true, true⟩],
       [⟨"p1", "T", "B", "", "t", true, some 1, 0, 0, "u9"⟩],
       [], [⟨"c1", "hi", false, "anon", "", 3, "p1", none⟩], []⟩
      (some "adm") "c1").1 = 200
    ∧ (getComment (approve_comment
      ⟨[⟨"adm", "root", "root@x.com", "h", "", "", true, true⟩],
       [⟨"p1", "T", "B", "", "t", true, some 1, 0, 0, "u9"⟩],
       [], [⟨"c1", "hi", false, "anon", "", 3, "p1", none⟩], []⟩
      (some "adm") "c1").2 "c1").map Comment.is_approved = some true := by
  have := claim_c6_admin_approve_idempotent
    ⟨[⟨"adm", "root", "root@x.com", "h", "", "", true, true⟩],
     [⟨"p1", "T", "B", "", "t", true, some 1, 0, 0, "u9"⟩],
     [], [⟨"c1", "hi", false, "anon", "", 3, "p1", none⟩], []⟩
    ⟨"adm", "root", "root@x.com", "h", "", "", true, true⟩
    ⟨"c1", "hi", false, "anon", "", 3, "p1", none⟩
    (by decide) (by decide) (by decide)
  exact ⟨this.1, this.2.1⟩

theorem claim_c2_counterexample :
    ("My_Tag" : String) ≠ "My Tag"
    ∧ slugCandidate "My_Tag" none = slugCandidate "My Tag" none
    ∧ create_tag ⟨[], [], [], [], []⟩ (some "u1")
        (some ⟨some "My Tag", none, none⟩) 0 "t1"
        = (201, ⟨[], [], [⟨"t1", "My Tag", "my-tag", "", 0⟩], [], []⟩)
    ∧ create_tag ⟨[], [], [⟨"t1", "My Tag", "my-tag", "", 0⟩], [], []⟩ (some "u1")
        (some ⟨some "My_Tag", none, none⟩) 1 "t2"
        = (500, ⟨[], [], [⟨"t1", "My Tag", "my-tag", "", 0⟩], [], []⟩) := by
  decide

theorem claim_c2_tag_slug_no_resolution (db : DB) (a nm : String) (d : TagCreateData)
    (now : Nat) (nid : String) (hn : d.name = some nm)
    (hfresh : ∀ t ∈ db.tags, t.name ≠ nm) :
    (slugCandidate nm d.slug ∈ db.tags.map Tag.slug →
        create_tag db (some a) (some d) now nid = (500, db))
    ∧ (slugCandidate nm d.slug ∉ db.tags.map Tag.slug →
        (create_tag db (some a) (some d) now nid).1 = 201
        ∧ (create_tag db (some a) (some d) now nid).2.tags.map Tag.slug
            = db.tags.map Tag.slug ++ [slugCandidate nm d.slug]
        ∧ (create_tag db (some a) (some d) now nid).2.posts = db.posts) := by
  have hname : db.tags.any (fun t => t.name == nm) = false := by
    rw [List.any_eq_false]
    intro t ht
    simpa using hfresh t ht
  constructor
  · intro hmem
    obtain ⟨t, ht, hts⟩ := List.mem_map.mp hmem
    have hslug : db.tags.any (fun t => t.slug == slugCandidate nm d.slug) = true :=
      List.any_eq_true.mpr ⟨t, ht, by simp [hts]⟩
    simp [create_tag, hn, hname, hslug]
  · intro hnm
    have hslug : db.tags.any (fun t => t.slug == slugCandidate nm d.slug) = false := by
      rw [List.any_eq_false]
      intro t ht
      simp only [beq_iff_eq]
      intro hts
      exact hnm (List.mem_map.mpr ⟨t, ht, hts⟩)
    refine ⟨by simp [create_tag, hn, hname, hslug], ?_, by simp [create_tag, hn, hname, hslug]⟩
    simp [create_tag, hn, hname, hslug]

theorem claim_c2_witness :
    create_tag ⟨[], [], [⟨"t1", "Old", "my-tag", "", 0⟩], [], []⟩ (some "u1")
        (some ⟨some "My Tag", none, none⟩) 1 "t2"
      = (500, ⟨[], [], [⟨"t1", "Old", "my-tag", "", 0⟩], [], []⟩) := by
  have := claim_c2_tag_slug_no_resolution
    ⟨[], [], [⟨"t1", "Old", "my-tag", "", 0⟩], [], []⟩
    "u1" "My Tag" ⟨some "My Tag", none, none⟩ 1 "t2" rfl (by decide)
  exact this.1 (by decide)

theorem claim_c5_token_ignored :
    ∀ callerToken : Option String,
      create_comment
        ⟨[⟨"u1", "alice", "alice@x.com", "h", "", "", true, false⟩],
         [⟨"p1", "T", "B", "", "t", true, some 0, 0, 0, "u1"⟩], [], [], []⟩
        callerToken "p1" (some ⟨some "hi", none, none⟩) 5 "c1"
      = (201, ⟨[⟨"u1", "alice", "alice@x.com", "h", "", "", true, false⟩],
         [⟨"p1", "T", "B", "", "t", true, some 0, 0, 0, "u1"⟩], [],
         [⟨"c1", "hi", false, "", "", 5, "p1", none⟩], []⟩) := by
  intro callerToken
  rfl

theorem published_filter_length_le (db : DB) (pub : Option String) :
    (if pyLower (pub.getD "true") == "true"
      then db.posts.filter (fun p => p.is_published) else db.posts).length
      ≤ db.posts.length := by
  split
  · exact List.length_filter_le _ _
  · exact le_refl _

theorem get_posts_out_of_range (db : DB) (page pp : Nat) (pub tg : Option String)
    (h1 : 1 ≤ page) (h : db.posts.length ≤ (page - 1) * pp) :
    (get_posts db (some page) (some pp) pub tg).items = [] := by
  have key : ∀ rows : List Post, rows.length ≤ db.posts.length →
      (paginate (orderPostsByCreatedDesc rows) page pp).items = [] := by
    intro rows hrows
    have hlen : (orderPostsByCreatedDesc rows).length = rows.length :=
      (List.perm_insertionSort _ rows).length_eq
    have hdrop : (orderPostsByCreatedDesc rows).drop ((max page 1 - 1) * pp) = [] := by
      apply List.drop_eq_nil_of_le
      rw [hlen, Nat.max_eq_left h1]
      omega
    simp [paginate, hdrop]
  simp only [get_posts, Option.getD_some]
  apply key
  rcases tg with _ | ts
  · exact published_filter_length_le db pub
  · dsimp only
    cases hf : db.tags.find? (fun t => t.slug == ts) with
    | none => exact published_filter_length_le db pub
    | some t => exact le_trans (List.length_filter_le _ _) (published_filter_length_le db pub)

theorem get_all_users_out_of_range (db : DB) (a : Option String) (page pp : Nat)
    (h1 : 1 ≤ page) (h : db.users.length ≤ (page - 1) * pp) :
    ((get_all_users db a (some page) (some pp)).2.getD ⟨[], 0, 0, 0⟩).items = [] := by
  unfold get_all_users
  cases adminCheck db a with
  | some s => rfl
  | none =>
    have hdrop : db.users.drop ((max page 1 - 1) * pp) = [] := by
      apply List.drop_eq_nil_of_le
      rw [Nat.max_eq_left h1]
      omega
    simp [paginate, hdrop]

theorem claim_c8_counterexample :
    (get_post_comments elevenCommentsDb "p1").2
      ≠ some ((paginate (elevenCommentsDb.comments.filter
          (fun c => c.post_id == "p1" && c.is_approved)) 1 10).items)
    ∧ ((get_post_comments elevenCommentsDb "p1").2.getD []).length = 11 := by
  decide

theorem claim_c8_pagination_amended :
    (∀ db : DB, get_posts db none none none none = get_posts db (some 1) (some 10) none none)
    ∧ (∀ (db : DB) (a : Option String),
        get_all_users db a none none = get_all_users db a (some 1) (some 20))
    ∧ (∀ (db : DB) (a : Option String),
        get_all_comments db a none none none = get_all_comments db a (some 1) (some 20) none)
    ∧ (∀ (db : DB) (page pp : Nat) (pub tg : Option String), 1 ≤ page →
        db.posts.length ≤ (page - 1) * pp →
        (get_posts db (some page) (some pp) pub tg).items = [])
    ∧ (∀ (db : DB) (a : Option String) (page pp : Nat), 1 ≤ page →
        db.users.length ≤ (page - 1) * pp →
        ((get_all_users db a (some page) (some pp)).2.getD ⟨[], 0, 0, 0⟩).items = [])
    ∧ (∀ db : DB, db.posts = [] →
        get_posts db (some 1) (some 10) none none = ⟨[], 0, 0, 1⟩) := by
  refine ⟨fun db => rfl, fun db a => rfl, fun db a => rfl,
    get_posts_out_of_range, get_all_users_out_of_range, ?_⟩
  intro db h
  simp [get_posts, h, orderPostsByCreatedDesc, paginate]

theorem claim_c8_witness :
    (get_posts ⟨[], [], [], [], []⟩ (some 2) (some 10) none none).items = []
    ∧ ((get_all_users ⟨[], [], [], [], []⟩ (some "a") (some 3) (some 20)).2.getD
        ⟨[], 0, 0, 0⟩).items = []
    ∧ get_posts ⟨[], [], [], [], []⟩ (some 1) (some 10) none none = ⟨[], 0, 0, 1⟩ :=
  ⟨claim_c8_pagination_amended.2.2.2.1 ⟨[], [], [], [], []⟩ 2 10 none none
      (by decide) (by decide),
   claim_c8_pagination_amended.2.2.2.2.1 ⟨[], [], [], [], []⟩ (some "a") 3 20
      (by decide) (by decide),
   claim_c8_pagination_amended.2.2.2.2.2 ⟨[], [], [], [], []⟩ rfl⟩

theorem claim_c9_counterexample :
    (get_post_comments twoCommentsDb "p1").2
      ≠ some (orderByCreatedDesc (twoCommentsDb.comments.filter
          (fun c => c.post_id == "p1" && c.is_approved)))
    ∧ ((get_post_comments twoCommentsDb "p1").2.getD []).map Comment.created_at = [0, 1] := by
  decide

theorem claim_c9_comment_ordering :
    (∀ (db : DB) (pid : String) (l : List Comment),
        (get_post_comments db pid).2 = some l →
        l.Sublist db.comments
        ∧ ∀ c : Comment, c ∈ l ↔ c ∈ db.comments ∧ c.post_id = pid ∧ c.is_approved = true)
    ∧ (∀ (db : DB) (a : Option String) (page pp : Option Nat) (ap : Option String)
        (pg : Page Comment),
        (get_all_comments db a page pp ap).2 = some pg →
        List.Pairwise (fun x y : Comment => y.created_at ≤ x.created_at) pg.items) := by
  constructor
  · intro db pid l hl
    have hsome : l = db.comments.filter (fun c => c.post_id == pid && c.is_approved) := by
      unfold get_post_comments at hl
      cases hf : db.posts.find? (fun p => p.id == pid) with
      | none =>
        rw [hf] at hl
        simp at hl
      | some p =>
        rw [hf] at hl
        simp only [Option.some_inj] at hl
        exact hl.symm
    subst hsome
    refine ⟨List.filter_sublist _, ?_⟩
    intro c
    rw [List.mem_filter]
    simp
  · intro db a page pp ap pg hpg
    have hsorted : ∀ q : List Comment,
        List.Pairwise (fun x y : Comment => y.created_at ≤ x.created_at)
          (orderByCreatedDesc q) := by
      intro q
      exact List.sorted_insertionSort (fun x y : Comment => y.created_at ≤ x.created_at) q
    unfold get_all_comments at hpg
    cases hadm : adminCheck db a with
    | some s =>
      rw [hadm] at hpg
      simp at hpg
    | none =>
      rw [hadm] at hpg
      simp only [Option.some_inj] at hpg
      have hsub : pg.items.Sublist
          (orderByCreatedDesc (if pyLower (ap.getD "false") == "true"
            then db.comments.filter (fun c => c.is_approved) else db.comments)) := by
        rw [← hpg]
        exact (List.take_sublist _ _).trans (List.drop_sublist _ _)
      exact List.Pairwise.sublist hsub (hsorted _)

theorem claim_c9_witness :
    ([⟨"c1", "first", true, "", "", 0, "p1", none⟩,
      ⟨"c2", "second", true, "", "", 1, "p1", none⟩] : List Comment).Sublist
        twoCommentsDb.comments
    ∧ List.Pairwise (fun x y : Comment => y.created_at ≤ x.created_at)
        ((paginate (orderByCreatedDesc
          [⟨"c1", "first", true, "", "", 0, "p1", none⟩,
           ⟨"c2", "second", true, "", "", 1, "p1", none⟩]) 1 20).items) := by
  constructor
  · exact (claim_c9_comment_ordering.1 twoCommentsDb "p1" _ (by decide)).1
  · exact claim_c9_comment_ordering.2
      ⟨[⟨"adm", "root", "root@x.com", "h", "", "", true, true⟩], [], [],
       [⟨"c1", "first", true, "", "", 0, "p1", none⟩,
        ⟨"c2", "second", true, "", "", 1, "p1", none⟩], []⟩
      (some "adm") (some 1) (some 20) none
      (paginate (orderByCreatedDesc
        [⟨"c1", "first", true, "", "", 0, "p1", none⟩,
         ⟨"c2", "second", true, "", "", 1, "p1", none⟩]) 1 20)
      (by decide)

theorem create_post_eq (db : DB) (uid : String) (d : PostCreateData) (now : Nat)
    (nid : String) (t ct : String)
    (ht : d.title = some t) (hct : d.content = some ct) (ht0 : t ≠ "") (hct0 : ct ≠ "") :
    create_post db uid d now nid
      = (201, { db with posts := db.posts ++ [createdPost db uid d now nid] }) := by
  simp [create_post, createdPost, ht, hct, beq_empty_false_of_ne ht0, beq_empty_false_of_ne hct0]

theorem allocSlug_range (c : String) (k : Nat) :
    allocSlug ((List.range k).map (slugAt c)) c = slugAt c k := by
  obtain ⟨j, halloc, hfree, hbelow⟩ := allocSlug_least ((List.range k).map (slugAt c)) c
  have hjk : j = k := by
    rcases Nat.lt_trichotomy j k with h | h | h
    · exact absurd (List.mem_map.mpr ⟨j, List.mem_range.mpr h, rfl⟩) hfree
    · exact h
    · exfalso
      obtain ⟨i, hi, hEq⟩ := List.mem_map.mp (hbelow k h)
      have hik : i = k := slugAt_inj c hEq
      rw [hik] at hi
      exact absurd (List.mem_range.mp hi) (lt_irrefl k)
  rw [halloc, hjk]

theorem createPosts_slugs (uid c : String) :
    ∀ (reqs : List (PostCreateData × Nat × String)) (db : DB) (k : Nat),
      (∀ r ∈ reqs, goodReq c r.1) →
      db.posts.map Post.slug = (List.range k).map (slugAt c) →
      (createPosts db uid reqs).posts.map Post.slug
        = (List.range (k + reqs.length)).map (slugAt c) := by
  intro reqs
  induction reqs with
  | nil =>
    intro db k _ hdb
    simpa using hdb
  | cons r rest ih =>
    intro db k hall hdb
    obtain ⟨t, ct, ht, hct, ht0, hct0, hcand⟩ := hall r (List.mem_cons_self r rest)
    have hstep := create_post_eq db uid r.1 r.2.1 r.2.2 t ct ht hct ht0 hct0
    have hdb1 : (create_post db uid r.1 r.2.1 r.2.2).2.posts.map Post.slug
        = (List.range (k + 1)).map (slugAt c) := by
      rw [hstep]
      show (db.posts ++ [createdPost db uid r.1 r.2.1 r.2.2]).map Post.slug = _
      rw [List.map_append]
      simp only [List.map_cons, List.map_nil, createdPost, ht, Option.getD_some, hcand, hdb]
      rw [allocSlug_range, List.range_succ, List.map_append]
      simp
    have hrec := ih ((create_post db uid r.1 r.2.1 r.2.2).2) (k + 1)
      (fun x hx => hall x (List.mem_cons_of_mem r hx)) hdb1
    have hfold : createPosts db uid (r :: rest)
        = createPosts ((create_post db uid r.1 r.2.1 r.2.2).2) uid rest := rfl
    rw [hfold, hrec, List.length_cons]
    congr 2
    omega

theorem claim_c1_post_slug_allocation
    (db : DB) (uid t ct c : String) (d : PostCreateData) (now : Nat) (nid : String)
    (ht : d.title = some t) (hct : d.content = some ct) (ht0 : t ≠ "") (hct0 : ct ≠ "")
    (hcand : slugCandidate t d.slug = c)
    (db0 : DB) (reqs : List (PostCreateData × Nat × String))
    (h0 : db0.posts = []) (hall : ∀ r ∈ reqs, goodReq c r.1) :
    (c ∉ db.posts.map Post.slug →
      (create_post db uid d now nid).2.posts.map Post.slug = db.posts.map Post.slug ++ [c])
    ∧ (createPosts db0 uid reqs).posts.map Post.slug
        = (List.range reqs.length).map (slugAt c) := by
  constructor
  · intro hfree
    rw [create_post_eq db uid d now nid t ct ht hct ht0 hct0]
    show (db.posts ++ [createdPost db uid d now nid]).map Post.slug = _
    rw [List.map_append]
    simp only [List.map_cons, List.map_nil, createdPost, ht, Option.getD_some, hcand]
    rw [allocSlug_free hfree]
  · have := createPosts_slugs uid c reqs db0 0 hall (by rw [h0]; rfl)
    simpa using this

theorem claim_c1_witness :
    (createPosts ⟨[], [], [], [], []⟩ "u1"
      [(⟨some "Hello World", some "B", none, none, none⟩, 0, "p1"),
       (⟨some "Hello World", some "B", none, none, none⟩, 1, "p2")]).posts.map Post.slug
      = ["hello-world", "hello-world-1"]
    ∧ (create_post ⟨[], [], [], [], []⟩ "u1"
        ⟨some "Hello World", some "B", none, none, none⟩ 0 "p1").2.posts.map Post.slug
      = ["hello-world"] := by
  have hgood : ∀ r ∈ [((⟨some "Hello World", some "B", none, none, none⟩ : PostCreateData), 0, "p1"),
      (⟨some "Hello World", some "B", none, none, none⟩, 1, "p2")], goodReq "hello-world" r.1 := by
    intro r hr
    rcases List.mem_cons.mp hr with h | h
    · subst h
      exact ⟨"Hello World", "B", rfl, rfl, by decide, by decide, by decide⟩
    · rcases List.mem_cons.mp h with h2 | h2
      · subst h2
        exact ⟨"Hello World", "B", rfl, rfl, by decide, by decide, by decide⟩
      · simp at h2
  have := claim_c1_post_slug_allocation ⟨[], [], [], [], []⟩ "u1" "Hello World" "B"
    "hello-world" ⟨some "Hello World", some "B", none, none, none⟩ 0 "p1"
    rfl rfl (by decide) (by decide) (by decide)
    ⟨[], [], [], [], []⟩
    [(⟨some "Hello World", some "B", none, none, none⟩, 0, "p1"),
     (⟨some "Hello World", some "B", none, none, none⟩, 1, "p2")]
    rfl hgood
  refine ⟨?_, ?_⟩
  · rw [this.2]
    decide
  · rw [this.1 (by decide)]
    rfl

theorem updatePostFields_id (p : Post) (d : PostUpdateData) (now : Nat) :
    (updatePostFields p d now).id = p.id := by
  rcases d with ⟨t, c, e, b⟩
  simp only [updatePostFields]
  cases t <;> cases c <;> cases e <;> cases b <;> rfl

theorem upf_pa (p : Post) (d : PostUpdateData) (now : Nat) :
    (updatePostFields p d now).published_at =
      match d.is_published with
      | none => p.published_at
      | some b => if b && p.published_at.isNone then some now else p.published_at := by
  rcases d with ⟨t, c, e, b⟩
  simp only [updatePostFields]
  cases t <;> cases c <;> cases e <;> cases b <;> rfl

theorem upf_pub (p : Post) (d : PostUpdateData) (now : Nat) :
    (updatePostFields p d now).is_published =
      match d.is_published with
      | none => p.is_published
      | some b => b := by
  rcases d with ⟨t, c, e, b⟩
  simp only [updatePostFields]
  cases t <;> cases c <;> cases e <;> cases b <;> rfl

theorem postStep_eq_or (users : List User) (p : Post)
    (s : String × Option PostUpdateData × Nat) :
    postStep users p s = p
    ∨ ∃ d, s.2.1 = some d ∧ postStep users p s = updatePostFields p d s.2.2 := by
  unfold postStep
  cases users.find? (fun u => u.id == s.1) with
  | none => exact Or.inl rfl
  | some user =>
    dsimp only
    by_cases hperm : (p.user_id != s.1 && !user.is_admin) = true
    · rw [if_pos hperm]
      exact Or.inl rfl
    · rw [if_neg hperm]
      cases hd : s.2.1 with
      | none => exact Or.inl rfl
      | some d =>
        dsimp only
        by_cases he : pudIsEmpty d = true
        · rw [if_pos he]
          exact Or.inl rfl
        · rw [if_neg he]
          exact Or.inr ⟨d, rfl, rfl⟩

theorem upf_pa_mono (p : Post) (d : PostUpdateData) (now tm : Nat)
    (h : p.published_at = some tm) :
    (updatePostFields p d now).published_at = some tm := by
  rw [upf_pa]
  cases d.is_published with
  | none => exact h
  | some b => simp [h]

theorem postStep_pa_mono (users : List User) (p : Post)
    (s : String × Option PostUpdateData × Nat) (tm : Nat)
    (h : p.published_at = some tm) :
    (postStep users p s).published_at = some tm := by
  rcases postStep_eq_or users p s with heq | ⟨d, _, heq⟩
  · rw [heq]; exact h
  · rw [heq]; exact upf_pa_mono p d s.2.2 tm h

theorem upf_inv (p : Post) (d : PostUpdateData) (now : Nat)
    (h : p.is_published = true → p.published_at ≠ none) :
    (updatePostFields p d now).is_published = true →
    (updatePostFields p d now).published_at ≠ none := by
  rw [upf_pa, upf_pub]
  cases d.is_published with
  | none => exact h
  | some b =>
    intro hb
    dsimp only at hb
    subst hb
    cases hpao : p.published_at with
    | some tm => simp [hpao]
    | none => simp [hpao]

theorem postStep_inv (users : List User) (p : Post)
    (s : String × Option PostUpdateData × Nat)
    (h : p.is_published = true → p.published_at ≠ none) :
    (postStep users p s).is_published = true →
    (postStep users p s).published_at ≠ none := by
  rcases postStep_eq_or users p s with heq | ⟨d, _, heq⟩
  · rw [heq]; exact h
  · rw [heq]; exact upf_inv p d s.2.2 h

theorem upf_key (p : Post) (d : PostUpdateData) (now : Nat)
    (h : (updatePostFields p d now).published_at ≠ none) :
    p.published_at ≠ none ∨ (updatePostFields p d now).is_published = true := by
  rw [upf_pa] at h
  rw [upf_pub]
  cases hb : d.is_published with
  | none =>
    rw [hb] at h
    exact Or.inl h
  | some b =>
    rw [hb] at h
    cases hpao : p.published_at with
    | some tm => exact Or.inl (by simp [hpao])
    | none =>
      cases b with
      | false => rw [hpao] at h; simp at h
      | true => exact Or.inr rfl

theorem postStep_key (users : List User) (p : Post)
    (s : String × Option PostUpdateData × Nat)
    (h : (postStep users p s).published_at ≠ none) :
    p.published_at ≠ none ∨ (postStep users p s).is_published = true := by
  rcases postStep_eq_or users p s with heq | ⟨d, _, heq⟩
  · rw [heq] at h
    exact Or.inl h
  · rw [heq] at h ⊢
    exact upf_key p d s.2.2 h

theorem foldSteps_pa_mono (users : List User) :
    ∀ (steps : List (String × Option PostUpdateData × Nat)) (p : Post) (tm : Nat),
      p.published_at = some tm →
      (steps.foldl (postStep users) p).published_at = some tm := by
  intro steps
  induction steps with
  | nil => exact fun p tm h => h
  | cons s rest ih =>
    intro p tm h
    exact ih (postStep users p s) tm (postStep_pa_mono users p s tm h)

theorem foldSteps_pa_ne (users : List User)
    (steps : List (String × Option PostUpdateData × Nat)) (p : Post)
    (h : p.published_at ≠ none) :
    (steps.foldl (postStep users) p).published_at ≠ none := by
  cases hp : p.published_at with
  | none => exact absurd hp h
  | some tm =>
    rw [foldSteps_pa_mono users steps p tm hp]
    simp

theorem foldSteps_pa_iff (users : List User) :
    ∀ (steps : List (String × Option PostUpdateData × Nat)) (p : Post),
      (p.is_published = true → p.published_at ≠ none) →
      ((steps.foldl (postStep users) p).published_at ≠ none ↔
        p.published_at ≠ none
        ∨ ∃ l₁ l₂, steps = l₁ ++ l₂ ∧ (l₁.foldl (postStep users) p).is_published = true) := by
  intro steps
  induction steps with
  | nil =>
    intro p hinv
    constructor
    · exact fun h => Or.inl h
    · rintro (h | ⟨l₁, l₂, heq, hpub⟩)
      · exact h
      · have h1 : l₁ = [] := (List.append_eq_nil.mp heq.symm).1
        subst h1
        exact hinv hpub
  | cons s rest ih =>
    intro p hinv
    have hinv1 := postStep_inv users p s hinv
    have IH := ih (postStep users p s) hinv1
    show ((rest.foldl (postStep users) (postStep users p s)).published_at ≠ none) ↔ _
    rw [IH]
    constructor
    · rintro (h1 | ⟨l₁, l₂, heq, hpub⟩)
      · rcases postStep_key users p s h1 with h2 | h2
        · exact Or.inl h2
        · exact Or.inr ⟨[s], rest, rfl, h2⟩
      · exact Or.inr ⟨s :: l₁, l₂, by rw [heq]; rfl, hpub⟩
    · rintro (h1 | ⟨l₁, l₂, heq, hpub⟩)
      · refine Or.inl ?_
        cases hp : p.published_at with
        | none => exact absurd hp h1
        | some tm =>
          rw [postStep_pa_mono users p s tm hp]
          simp
      · cases l₁ with
        | nil =>
          refine Or.inl ?_
          have hpa : p.published_at ≠ none := hinv hpub
          cases hp : p.published_at with
          | none => exact absurd hp hpa
          | some tm =>
            rw [postStep_pa_mono users p s tm hp]
            simp
        | cons a l₁ =>
          rw [List.cons_append] at heq
          injection heq with h1 h2
          subst h1
          exact Or.inr ⟨l₁, l₂, h2, hpub⟩

theorem find?_append_right {l₁ l₂ : List Post} {f : Post → Bool}
    (h : ∀ x ∈ l₁, f x = false) : (l₁ ++ l₂).find? f = l₂.find? f := by
  rw [List.find?_append]
  have hn : l₁.find? f = none := List.find?_eq_none.mpr (by
    intro x hx
    simp [h x hx])
  rw [hn]
  rfl

theorem update_post_track (db : DB) (pid : String) (p : Post)
    (s : String × Option PostUpdateData × Nat)
    (hfind : db.posts.find? (fun q => q.id == pid) = some p) :
    (update_post db s.1 pid s.2.1 s.2.2).2.users = db.users
    ∧ (update_post db s.1 pid s.2.1 s.2.2).2.posts.find? (fun q => q.id == pid)
        = some (postStep db.users p s) := by
  have hpid : (p.id == pid) = true :=
    @List.find?_some Post (fun q => q.id == pid) p db.posts hfind
  unfold update_post postStep
  rw [hfind]
  dsimp only
  cases hu : db.users.find? (fun u => u.id == s.1) with
  | none => exact ⟨by trivial, hfind⟩
  | some user =>
    dsimp only
    by_cases hperm : (p.user_id != s.1 && !user.is_admin) = true
    · simp only [if_pos hperm]
      exact ⟨by trivial, hfind⟩
    · simp only [if_neg hperm]
      cases hd : s.2.1 with
      | none =>
        dsimp only
        exact ⟨by trivial, hfind⟩
      | some d =>
        dsimp only
        by_cases he : pudIsEmpty d = true
        · simp only [if_pos he]
          exact ⟨by trivial, hfind⟩
        · simp only [if_neg he]
          refine ⟨by trivial, ?_⟩
          have hfid : ∀ x : Post,
              ((fun q => if q.id == pid then updatePostFields p d s.2.2 else q) x).id = x.id := by
            intro x
            by_cases hx : (x.id == pid) = true
            · have h1 : p.id = pid := by simpa using hpid
              have h2 : x.id = pid := by simpa using hx
              simp only [hx, if_pos, if_true]
              rw [updatePostFields_id, h1, h2]
            · simp only [hx]
              rw [if_neg]
              simp [hx]
          rw [find?_map_post_idpres hfid, hfind]
          show some (if (p.id == pid) = true then updatePostFields p d s.2.2 else p) = _
          rw [if_pos hpid]

theorem runPostUpdates_track (pid : String) :
    ∀ (steps : List (String × Option PostUpdateData × Nat)) (db : DB) (p : Post),
      db.posts.find? (fun q => q.id == pid) = some p →
      (runPostUpdates db pid steps).users = db.users
      ∧ (runPostUpdates db pid steps).posts.find? (fun q => q.id == pid)
          = some (steps.foldl (postStep db.users) p) := by
  intro steps
  induction steps with
  | nil => exact fun db p h => ⟨rfl, h⟩
  | cons s rest ih =>
    intro db p h
    obtain ⟨hu, hf⟩ := update_post_track db pid p s h
    obtain ⟨hu2, hf2⟩ := ih ((update_post db s.1 pid s.2.1 s.2.2).2) (postStep db.users p s) hf
    constructor
    · show (runPostUpdates ((update_post db s.1 pid s.2.1 s.2.2).2) pid rest).users = db.users
      rw [hu2, hu]
    · show (runPostUpdates ((update_post db s.1 pid s.2.1 s.2.2).2) pid rest).posts.find?
        (fun q => q.id == pid) = some ((s :: rest).foldl (postStep db.users) p)
      rw [hu] at hf2
      exact hf2

theorem claim_c3_published_at_once
    (db : DB) (uid t ct : String) (d : PostCreateData) (now0 : Nat) (pid : String)
    (steps : List (String × Option PostUpdateData × Nat))
    (ht : d.title = some t) (hct : d.content = some ct) (ht0 : t ≠ "") (hct0 : ct ≠ "")
    (hfresh : ∀ p ∈ db.posts, p.id ≠ pid) :
    (∀ (l₁ l₂ : List (String × Option PostUpdateData × Nat)) (tm : Nat),
        steps = l₁ ++ l₂ →
        (getPost (runPostUpdates (create_post db uid d now0 pid).2 pid l₁) pid).bind
          Post.published_at = some tm →
        (getPost (runPostUpdates (create_post db uid d now0 pid).2 pid steps) pid).bind
          Post.published_at = some tm)
    ∧ ((getPost (runPostUpdates (create_post db uid d now0 pid).2 pid steps) pid).bind
          Post.published_at ≠ none ↔
        ∃ l₁ l₂, steps = l₁ ++ l₂
          ∧ (getPost (runPostUpdates (create_post db uid d now0 pid).2 pid l₁) pid).map
              Post.is_published = some true) := by
  have hstep := create_post_eq db uid d now0 pid t ct ht hct ht0 hct0
  have hfind1 : (create_post db uid d now0 pid).2.posts.find? (fun q => q.id == pid)
      = some (createdPost db uid d now0 pid) := by
    rw [hstep]
    show (db.posts ++ [createdPost db uid d now0 pid]).find? (fun q => q.id == pid)
      = some (createdPost db uid d now0 pid)
    rw [find?_append_right (fun x hx => by simp [hfresh x hx])]
    simp [List.find?, createdPost]
  have husers : (create_post db uid d now0 pid).2.users = db.users := by
    rw [hstep]
  have htrack : ∀ l, getPost (runPostUpdates (create_post db uid d now0 pid).2 pid l) pid
      = some (l.foldl (postStep db.users) (createdPost db uid d now0 pid)) := by
    intro l
    have h := (runPostUpdates_track pid l ((create_post db uid d now0 pid).2)
      (createdPost db uid d now0 pid) hfind1).2
    rw [husers] at h
    exact h
  have hinv0 : (createdPost db uid d now0 pid).is_published = true →
      (createdPost db uid d now0 pid).published_at ≠ none := by
    intro h
    have hb : (d.is_published).getD false = true := h
    show (if (d.is_published).getD false then some now0 else none) ≠ none
    rw [hb]
    simp
  have hbase : (createdPost db uid d now0 pid).published_at ≠ none
      ↔ (createdPost db uid d now0 pid).is_published = true := by
    show (if (d.is_published).getD false then some now0 else none) ≠ none
      ↔ (d.is_published).getD false = true
    cases (d.is_published).getD false <;> simp
  constructor
  · intro l₁ l₂ tm heq hsome
    subst heq
    rw [htrack l₁] at hsome
    rw [htrack (l₁ ++ l₂)]
    have hsome2 : (l₁.foldl (postStep db.users) (createdPost db uid d now0 pid)).published_at = some tm := hsome
    show ((l₁ ++ l₂).foldl (postStep db.users) (createdPost db uid d now0 pid)).published_at = some tm
    rw [List.foldl_append]
    exact foldSteps_pa_mono db.users l₂ _ tm hsome2
  · rw [htrack steps]
    show ((steps.foldl (postStep db.users) (createdPost db uid d now0 pid)).published_at ≠ none) ↔ _
    rw [foldSteps_pa_iff db.users steps (createdPost db uid d now0 pid) hinv0]
    constructor
    · rintro (h | ⟨l₁, l₂, heq, hpub⟩)
      · refine ⟨[], steps, rfl, ?_⟩
        rw [htrack []]
        show some ((createdPost db uid d now0 pid).is_published) = some true
        rw [hbase.mp h]
      · refine ⟨l₁, l₂, heq, ?_⟩
        rw [htrack l₁]
        show some ((l₁.foldl (postStep db.users) (createdPost db uid d now0 pid)).is_published) = some true
        rw [hpub]
    · rintro ⟨l₁, l₂, heq, hpub⟩
      rw [htrack l₁] at hpub
      have hpub2 : some ((l₁.foldl (postStep db.users) (createdPost db uid d now0 pid)).is_published) = some true := hpub
      exact Or.inr ⟨l₁, l₂, heq, Option.some.inj hpub2⟩

theorem claim_c3_witness :
    (getPost (runPostUpdates
      (create_post ⟨[⟨"u1", "a", "a@x.co", "h", "", "", true, false⟩], [], [], [], []⟩
        "u1" ⟨some "T", some "B", none, none, none⟩ 0 "p1").2 "p1"
      [("u1", some ⟨none, none, none, some true⟩, 5),
       ("u1", some ⟨none, none, none, some false⟩, 9)]) "p1").bind
      Post.published_at = some 5 := by
  have := (claim_c3_published_at_once
    ⟨[⟨"u1", "a", "a@x.co", "h", "", "", true, false⟩], [], [], [], []⟩
    "u1" "T" "B" ⟨some "T", some "B", none, none, none⟩ 0 "p1"
    [("u1", some ⟨none, none, none, some true⟩, 5),
     ("u1", some ⟨none, none, none, some false⟩, 9)]
    rfl rfl (by decide) (by decide) (by decide)).1
    [("u1", some ⟨none, none, none, some true⟩, 5)]
    [("u1", some ⟨none, none, none, some false⟩, 9)]
    5 rfl (by decide)
  exact this

end Lodestar

